import Mathlib

/-!
Shallow embedding of the subagent discovery registry implemented by the
class SubagentRegistry in src/registry.ts, together with the request and
response shapes from src/types.ts.  JavaScript Map objects are modelled
as insertion-ordered association lists (set keeps the position of an
existing key, as JS Maps do), object references to manifests are
modelled as indices into an explicit heap (the caches store references,
so in-place telemetry mutation is visible through them), JS numbers are
modelled as exact rationals, and the Date.now readings inside one public
operation are modelled as a single clock parameter in milliseconds.
String operations model the ASCII fragment the registry handles.
-/

namespace Registry

/-- Models String.prototype.toLowerCase (ASCII fragment). -/
def toLowerCase (s : String) : String := ⟨s.data.map Char.toLower⟩

/-- Does the character list start with the given pattern list. -/
def beginsWithChars : List Char → List Char → Bool
  | [], _ => true
  | _ :: _, [] => false
  | a :: as, b :: bs => a == b && beginsWithChars as bs

/-- Does the character list contain the pattern as a contiguous run. -/
def containsChars (pat : List Char) : List Char → Bool
  | [] => beginsWithChars pat []
  | c :: cs => beginsWithChars pat (c :: cs) || containsChars pat cs

/-- Models String.prototype.includes: does s contain t as a substring. -/
def strIncludes (s t : String) : Bool := containsChars t.data s.data

/-- Splits a character list at whitespace, keeping empty runs, like
splitting on a single-whitespace regex does. -/
def wordsAux : List Char → List Char → List (List Char)
  | [], acc => [acc.reverse]
  | c :: cs, acc =>
    if c.isWhitespace then acc.reverse :: wordsAux cs []
    else wordsAux cs (c :: acc)

/-- Models query.split on whitespace followed by the filter keeping only
tokens of length strictly greater than 2 (registry.ts line 79).
Tokens produced by consecutive whitespace are empty and are dropped by
the length filter, so this agrees with the JS regex split. -/
def queryWordsOf (q : String) : List String :=
  ((wordsAux q.data []).map (fun l => (⟨l⟩ : String))).filter (fun w => w.length > 2)

/-- Lookup in an insertion-ordered association list (JS Map.get). -/
def mapGet {κ α : Type} [DecidableEq κ] : List (κ × α) → κ → Option α
  | [], _ => none
  | (k1, v) :: rest, k => if k = k1 then some v else mapGet rest k

/-- Update or append in an insertion-ordered association list (JS
Map.set): an existing key keeps its position, a new key is appended. -/
def mapSet {κ α : Type} [DecidableEq κ] : List (κ × α) → κ → α → List (κ × α)
  | [], k, v => [(k, v)]
  | (k1, v1) :: rest, k, v =>
    if k = k1 then (k, v) :: rest else (k1, v1) :: mapSet rest k v

/-- Removal from an association list (JS Map.delete). -/
def mapDelete {κ α : Type} [DecidableEq κ] : List (κ × α) → κ → List (κ × α)
  | [], _ => []
  | (k1, v1) :: rest, k => if k = k1 then rest else (k1, v1) :: mapDelete rest k

/-- Iteration over stored values in insertion order (JS Map.values). -/
def mapValues {κ α : Type} (m : List (κ × α)) : List α := m.map Prod.snd

/-- Latency classification from src/types.ts. -/
inductive LatencyClass where
  | inner
  | outer
  | both
deriving DecidableEq

/-- HostCompatibility from src/types.ts; the enumerated scm and os
values are modelled as strings. -/
structure HostCompatibility where
  scm : Option (List String)
  os : Option (List String)
  needsGui : Option Bool
deriving DecidableEq

/-- TelemetryData from src/types.ts; lastInvoked is an ISO timestamp
string in the source, modelled as the clock value it was taken at. -/
structure TelemetryData where
  successScore : Option ℚ
  typicalLatencyMs : Option ℚ
  invocationCount : Option Nat
  lastInvoked : Option Nat
deriving DecidableEq

/-- SubagentCapsule from src/types.ts. -/
structure SubagentCapsule where
  id : String
  aliases : Option (List String)
  summary : String
  tags : List String
  latencyClass : LatencyClass
  capabilities : Option (List String)
deriving DecidableEq

/-- SubagentManifest from src/types.ts, restricted to the fields the
registry ever reads; owner, version, systemPrompt, toolRequirements,
mcpConfig, permissions, contextBudget and safety are opaque payloads the
registry merely stores and returns, so they are not modelled. -/
structure SubagentManifest where
  id : String
  aliases : Option (List String)
  summary : String
  description : String
  tags : List String
  latencyClass : LatencyClass
  capabilities : Option (List String)
  hostCompatibility : Option HostCompatibility
  telemetry : Option TelemetryData
deriving DecidableEq

/-- The hostCaps field of SearchSubagentsRequest from src/types.ts.
availableTokens is carried but never read by the registry. -/
structure HostCaps where
  scm : Option (List String)
  availableTokens : Option (List (String × Bool))
  os : Option String
  hasGui : Option Bool
deriving DecidableEq

/-- SearchSubagentsRequest from src/types.ts. -/
structure SearchRequest where
  query : String
  k : Option Nat
  tags : Option (List String)
  hostCaps : Option HostCaps
  latencyClass : Option LatencyClass
deriving DecidableEq

/-- The searchMethod diagnostic tag from src/types.ts. -/
inductive SearchMethod where
  | embedding
  | keyword
  | hybrid
deriving DecidableEq

/-- The diagnostics block of SearchSubagentsResponse. -/
structure SearchDiagnostics where
  searchMethod : SearchMethod
  durationMs : Nat
  cacheHit : Bool
deriving DecidableEq

/-- SearchSubagentsResponse from src/types.ts. -/
structure SearchResponse where
  capsules : List SubagentCapsule
  total : Nat
  diagnostics : SearchDiagnostics
deriving DecidableEq

/-- ListSubagentsRequest from src/types.ts; pageSize and offset are JS
numbers and may be negative, hence integers here. -/
structure ListRequest where
  tags : Option (List String)
  pageSize : Option Int
  offset : Option Int
deriving DecidableEq

/-- ListSubagentsResponse from src/types.ts. -/
structure ListResponse where
  capsules : List SubagentCapsule
  total : Nat
  hasMore : Bool
deriving DecidableEq

/-- The session cache key built at registry.ts lines 82 to 87: the JSON
serialisation of query, k, tags and latencyClass.  Host capabilities are
not part of the key.  JSON.stringify is injective on these four fields,
so the record itself serves as the key. -/
structure SearchCacheKey where
  query : String
  k : Nat
  tags : Option (List String)
  latencyClass : Option LatencyClass
deriving DecidableEq

/-- A stored search result: the capsule list plus insertion clock. -/
structure SessionEntry where
  capsules : List SubagentCapsule
  timestamp : Nat
deriving DecidableEq

/-- A stored manifest: a heap reference plus insertion clock.  The
source caches the manifest object itself; storing the reference models
that the cached object and the authoritative record are aliased. -/
structure ManifestEntry where
  ref : Nat
  timestamp : Nat
deriving DecidableEq

/-- The private state of a SubagentRegistry instance. -/
structure RegistryState where
  heap : List SubagentManifest
  manifests : List (String × Nat)
  capsules : List (String × SubagentCapsule)
  aliasMap : List (String × String)
  sessionCache : List (SearchCacheKey × SessionEntry)
  manifestCache : List (String × ManifestEntry)
deriving DecidableEq

/-- The state of a freshly constructed registry with no manifests. -/
def emptyRegistry : RegistryState := ⟨[], [], [], [], [], []⟩

/-- CACHE_TTL, five minutes in milliseconds. -/
def CACHE_TTL : Nat := 5 * 60 * 1000

/-- MAX_SEARCH_CACHE. -/
def MAX_SEARCH_CACHE : Nat := 20

/-- MAX_MANIFEST_CACHE. -/
def MAX_MANIFEST_CACHE : Nat := 5

/-- The capsule derived from a manifest at registration, registry.ts
lines 45 to 52. -/
def deriveCapsule (m : SubagentManifest) : SubagentCapsule :=
  ⟨m.id, m.aliases, m.summary, m.tags, m.latencyClass, m.capabilities⟩

/-- register from registry.ts lines 41 to 63: store the manifest (a
fresh heap cell models the fresh object reference), derive and store the
capsule, then point every declared alias and finally the identifier
itself, lowercased, at the identifier. -/
def register (st : RegistryState) (m : SubagentManifest) : RegistryState :=
  let ref := st.heap.length
  let am := (m.aliases.getD []).foldl (fun am a => mapSet am (toLowerCase a) m.id) st.aliasMap
  { heap := st.heap ++ [m]
    manifests := mapSet st.manifests m.id ref
    capsules := mapSet st.capsules m.id (deriveCapsule m)
    aliasMap := mapSet am (toLowerCase m.id) m.id
    sessionCache := st.sessionCache
    manifestCache := st.manifestCache }

/-- resolveId from registry.ts lines 68 to 70. -/
def resolveId (st : RegistryState) (idOrAlias : String) : Option String :=
  mapGet st.aliasMap (toLowerCase idOrAlias)

/-- The authoritative specification currently stored for an identifier:
the manifests map followed by the heap dereference. -/
def specById (st : RegistryState) (id : String) : Option SubagentManifest :=
  (mapGet st.manifests id).bind (fun ref => st.heap[ref]?)

/-- The latency hard filter, registry.ts lines 106 to 109; true means
the capsule survives. -/
def latencyFilterOk (f : Option LatencyClass) (c : SubagentCapsule) : Bool :=
  match f with
  | none => true
  | some lc => c.latencyClass == LatencyClass.both || c.latencyClass == lc

/-- The tag hard filter, registry.ts lines 112 to 115; an absent or
empty tag list filters nothing. -/
def tagFilterOk (tf : Option (List String)) (c : SubagentCapsule) : Bool :=
  match tf with
  | none => true
  | some ts => ts.isEmpty || ts.any (fun t => c.tags.contains t)

/-- The scm part of the host filter, registry.ts lines 122 to 127. -/
def scmOk (caps : HostCaps) (compat : HostCompatibility) : Bool :=
  match caps.scm, compat.scm with
  | some rs, some ms => rs.any (fun s => ms.contains s)
  | _, _ => true

/-- The os part of the host filter, registry.ts lines 130 to 134; an
empty request os string is falsy in JS and skips the check. -/
def osOk (caps : HostCaps) (compat : HostCompatibility) : Bool :=
  match caps.os, compat.os with
  | some o, some ms => o == "" || ms.contains o
  | _, _ => true

/-- The GUI part of the host filter, registry.ts lines 137 to 139. -/
def guiOk (caps : HostCaps) (compat : HostCompatibility) : Bool :=
  caps.hasGui.getD false || !(compat.needsGui.getD false)

/-- The host-capability hard filter, registry.ts lines 118 to 141; when
the backing manifest is missing or declares no host compatibility the
capsule survives. -/
def hostFilterOk (hc : Option HostCaps) (mspec : Option SubagentManifest) : Bool :=
  match hc with
  | none => true
  | some caps =>
    match mspec with
    | none => true
    | some m =>
      match m.hostCompatibility with
      | none => true
      | some compat => scmOk caps compat && osOk caps compat && guiOk caps compat

/-- All three hard filters of the scoring loop. -/
def passesFilters (st : RegistryState) (req : SearchRequest) (c : SubagentCapsule) : Bool :=
  latencyFilterOk req.latencyClass c && tagFilterOk req.tags c &&
    hostFilterOk req.hostCaps (specById st c.id)

/-- The additive relevance score, registry.ts lines 144 to 179, before
the telemetry multiplier; query is already lowercased and qWords are the
query words derived from it. -/
def rawScore (query : String) (qWords : List String) (c : SubagentCapsule) : ℚ :=
  let s0 : ℚ :=
    if toLowerCase c.id == query || (c.aliases.getD []).any (fun a => toLowerCase a == query)
    then 100 else 0
  let s1 := c.tags.foldl
    (fun acc tag =>
      qWords.foldl
        (fun acc2 w => if strIncludes (toLowerCase tag) w then acc2 + 5 else acc2)
        (if strIncludes query (toLowerCase tag) then acc + 20 else acc))
    s0
  let s2 := qWords.foldl
    (fun acc w => if strIncludes (toLowerCase c.summary) w then acc + 10 else acc) s1
  match c.capabilities with
  | some cs =>
    cs.foldl (fun acc cap => if strIncludes query (toLowerCase cap) then acc + 15 else acc) s2
  | none => s2

/-- The telemetry boost, registry.ts lines 182 to 185: the guard is the
JS truthiness of successScore, so a present score of 0 skips the
multiplier. -/
def boostScore (mspec : Option SubagentManifest) (s : ℚ) : ℚ :=
  match mspec with
  | some m =>
    match m.telemetry with
    | some t =>
      match t.successScore with
      | some ss => if ss == 0 then s else s * (0.8 + 0.2 * ss)
      | none => s
    | none => s
  | none => s

/-- The final score of a capsule against a request in a given state. -/
def capsuleScore (st : RegistryState) (query : String) (qWords : List String)
    (c : SubagentCapsule) : ℚ :=
  boostScore (specById st c.id) (rawScore query qWords c)

/-- The scored list built by the loop at registry.ts lines 104 to 190:
capsules in insertion order, hard-filtered, scored, kept when the score
is strictly positive. -/
def scoredOf (st : RegistryState) (req : SearchRequest) : List (SubagentCapsule × ℚ) :=
  let query := toLowerCase req.query
  let qWords := queryWordsOf query
  ((mapValues st.capsules).filter (fun c => passesFilters st req c)).filterMap
    (fun c =>
      let s := capsuleScore st query qWords c
      if 0 < s then some (c, s) else none)

/-- Insert into a score-descending list, after all entries of greater or
equal score. -/
def insertDesc (x : SubagentCapsule × ℚ) : List (SubagentCapsule × ℚ) → List (SubagentCapsule × ℚ)
  | [] => [x]
  | y :: l => if x.2 > y.2 then x :: y :: l else y :: insertDesc x l

/-- The stable descending sort of registry.ts line 193 (JS Array sort is
stable, comparator b.score - a.score). -/
def sortByScoreDesc (l : List (SubagentCapsule × ℚ)) : List (SubagentCapsule × ℚ) :=
  l.foldl (fun acc x => insertDesc x acc) []

/-- pruneCache from registry.ts lines 293 to 310: the key of the first
entry, in insertion order, with the strictly smallest timestamp. -/
def oldestKey {κ α : Type} (ts : α → Nat) (m : List (κ × α)) : Option κ :=
  (m.foldl
    (fun acc kv =>
      match acc with
      | none => some (kv.1, ts kv.2)
      | some (k0, t0) => if ts kv.2 < t0 then some (kv.1, ts kv.2) else some (k0, t0))
    none).map Prod.fst

/-- pruneCache from registry.ts lines 293 to 310: when the cache has
reached its capacity, evict the oldest entry by timestamp. -/
def pruneCache {κ α : Type} [DecidableEq κ] (ts : α → Nat) (maxSize : Nat)
    (m : List (κ × α)) : List (κ × α) :=
  if m.length ≥ maxSize then
    match oldestKey ts m with
    | some k => mapDelete m k
    | none => m
  else m

/-- The session cache key of a request, registry.ts lines 82 to 87. -/
def cacheKeyOf (req : SearchRequest) : SearchCacheKey :=
  ⟨req.query, req.k.getD 5, req.tags, req.latencyClass⟩

/-- The cache-miss branch of search, registry.ts lines 101 to 213:
score, sort, truncate to k, cache and answer.  Both Date.now readings
happen at the single modelled instant, so durationMs is 0. -/
def searchCompute (st : RegistryState) (now : Nat) (req : SearchRequest) :
    SearchResponse × RegistryState :=
  let k := req.k.getD 5
  let scored := scoredOf st req
  let sorted := sortByScoreDesc scored
  let topCapsules := (sorted.map Prod.fst).take k
  let newCache := mapSet (pruneCache SessionEntry.timestamp MAX_SEARCH_CACHE st.sessionCache)
    (cacheKeyOf req) ⟨topCapsules, now⟩
  (⟨topCapsules, scored.length, ⟨SearchMethod.keyword, 0, false⟩⟩,
   { st with sessionCache := newCache })

/-- search from registry.ts lines 75 to 214. -/
def search (st : RegistryState) (now : Nat) (req : SearchRequest) :
    SearchResponse × RegistryState :=
  let k := req.k.getD 5
  match mapGet st.sessionCache (cacheKeyOf req) with
  | some entry =>
    if now - entry.timestamp < CACHE_TTL then
      (⟨entry.capsules.take k, entry.capsules.length, ⟨SearchMethod.keyword, 0, true⟩⟩, st)
    else searchCompute st now req
  | none => searchCompute st now req

/-- getManifest from registry.ts lines 219 to 240.  A cache hit within
the TTL dereferences the cached reference; otherwise the manifest is
looked up, cached and returned. -/
def getManifest (st : RegistryState) (now : Nat) (reqId : String) :
    Option SubagentManifest × RegistryState :=
  match resolveId st reqId with
  | none => (none, st)
  | some id =>
    let fresh : Option SubagentManifest × RegistryState :=
      match mapGet st.manifests id with
      | some ref =>
        let newCache := mapSet (pruneCache ManifestEntry.timestamp MAX_MANIFEST_CACHE
          st.manifestCache) id ⟨ref, now⟩
        (st.heap[ref]?, { st with manifestCache := newCache })
      | none => (none, st)
    match mapGet st.manifestCache id with
    | some entry =>
      if now - entry.timestamp < CACHE_TTL then (st.heap[entry.ref]?, st) else fresh
    | none => fresh

/-- list from registry.ts lines 245 to 266; the slice carries the JS
end-relative semantics for negative arguments. -/
def jsSlice {α : Type} (l : List α) (start stop : Int) : List α :=
  let len : Int := l.length
  let s : Int := if start < 0 then max (len + start) 0 else min start len
  let e : Int := if stop < 0 then max (len + stop) 0 else min stop len
  (l.drop s.toNat).take (e - s).toNat

/-- list from registry.ts lines 245 to 266. -/
def list (st : RegistryState) (req : ListRequest) : ListResponse :=
  let pageSize := req.pageSize.getD 50
  let offset := req.offset.getD 0
  let capsules0 := mapValues st.capsules
  let capsules :=
    match req.tags with
    | some ts =>
      if ts.isEmpty then capsules0
      else capsules0.filter (fun c => ts.any (fun t => c.tags.contains t))
    | none => capsules0
  let total := capsules.length
  ⟨jsSlice capsules offset (offset + pageSize), total, offset + pageSize < (total : Int)⟩

/-- The telemetry block written by updateTelemetry, registry.ts lines
319 to 336: initialisation on the first observation, exponential
smoothing afterwards, with the JS nullish defaults for missing fields. -/
def telemetryStep (old : Option TelemetryData) (success : Bool) (latencyMs : ℚ)
    (now : Nat) : TelemetryData :=
  match old with
  | none => ⟨some (if success then 1 else 0), some latencyMs, some 1, some now⟩
  | some t =>
    ⟨some ((t.successScore.getD (1/2)) * 0.9 + (if success then (1:ℚ) else 0) * 0.1),
     some ((t.typicalLatencyMs.getD latencyMs) * 0.9 + latencyMs * 0.1),
     some ((t.invocationCount.getD 0) + 1),
     some now⟩

/-- updateTelemetry from registry.ts lines 315 to 337: mutates the
telemetry block of the stored manifest in place; unknown identifiers are
a no-op. -/
def updateTelemetry (st : RegistryState) (now : Nat) (id : String) (success : Bool)
    (latencyMs : ℚ) : RegistryState :=
  match mapGet st.manifests id with
  | none => st
  | some ref =>
    match st.heap[ref]? with
    | none => st
    | some m =>
      let m2 := { m with telemetry := some (telemetryStep m.telemetry success latencyMs now) }
      { st with heap := st.heap.set ref m2 }

/-- clearCache from registry.ts lines 285 to 288. -/
def clearCache (st : RegistryState) : RegistryState :=
  { st with sessionCache := [], manifestCache := [] }

/-- One public state-changing operation of the registry. -/
inductive Op where
  | reg (m : SubagentManifest)
  | srch (now : Nat) (req : SearchRequest)
  | getMan (now : Nat) (id : String)
  | tele (now : Nat) (id : String) (success : Bool) (latencyMs : ℚ)
  | clear

/-- The state transition of one operation. -/
def applyOp (st : RegistryState) : Op → RegistryState
  | Op.reg m => register st m
  | Op.srch now req => (search st now req).2
  | Op.getMan now i => (getManifest st now i).2
  | Op.tele now i s l => updateTelemetry st now i s l
  | Op.clear => clearCache st

/-- The registry state after a sequence of operations from a fresh
instance; the constructor registering an initial catalog is the special
case of a list of reg operations. -/
def runOps (ops : List Op) : RegistryState := ops.foldl applyOp emptyRegistry

end Registry

namespace Registry

/-- A manifest with only the discovery fields populated, as the legacy
manifest loader produces for simple descriptors. -/
def mkManifest (id : String) (tags : List String) (summary : String) : SubagentManifest :=
  { id := id, aliases := none, summary := summary, description := "", tags := tags,
    latencyClass := LatencyClass.inner, capabilities := none,
    hostCompatibility := none, telemetry := none }

/-- Two descriptors that both match the query used in the cached-total
scenario. -/
def secA : SubagentManifest := mkManifest "sec-a" ["security"] "first scanner"

/-- Second descriptor of the cached-total scenario. -/
def secB : SubagentManifest := mkManifest "sec-b" ["security"] "second scanner"

/-- A search request with limit 1 whose query matches both descriptors. -/
def reqC2 : SearchRequest := ⟨"security", some 1, none, none, none⟩

/-- Registry holding the two matching descriptors. -/
def stC2 : RegistryState := register (register emptyRegistry secA) secB

/-- A descriptor that requires a GUI host. -/
def guiSpec : SubagentManifest :=
  { mkManifest "gui-agent" ["gui"] "captures desktop screenshots" with
    hostCompatibility := some ⟨none, none, some true⟩ }

/-- Host capabilities of a caller that has a GUI. -/
def capsWithGui : HostCaps := ⟨none, none, none, some true⟩

/-- Host capabilities of a caller without a GUI. -/
def capsNoGui : HostCaps := ⟨none, none, none, some false⟩

/-- Search request from the GUI-capable caller. -/
def reqGui : SearchRequest := ⟨"desktop screenshots", none, none, some capsWithGui, none⟩

/-- The same query, limit and filters from the caller without a GUI;
only the host capabilities differ, which the cache key ignores. -/
def reqNoGui : SearchRequest := ⟨"desktop screenshots", none, none, some capsNoGui, none⟩

/-- Registry holding the GUI-requiring descriptor. -/
def stGui : RegistryState := register emptyRegistry guiSpec

/-- Registry for the zero-success-score scenario, before the failure. -/
def stZeroA : RegistryState := register emptyRegistry (mkManifest "sec-agent" ["security"] "scans")

/-- Registry whose only descriptor carries successScore 0, produced by
one failed observation. -/
def stZero : RegistryState := updateTelemetry stZeroA 0 "sec-agent" false 100

/-- A manifest carrying a telemetry block with successScore one half,
for exercising the applied multiplier. -/
def halfScoreSpec : SubagentManifest :=
  { mkManifest "half" [] "" with telemetry := some ⟨some (1/2), none, none, none⟩ }

/-- Fresh descriptor for the telemetry-update scenario. -/
def trSpec : SubagentManifest := mkManifest "tr" ["testing"] "runs tests"

/-- Registry holding the fresh descriptor. -/
def stTr : RegistryState := register emptyRegistry trSpec

/-- State after the first telemetry observation, at clock 5. -/
def stTr1 : RegistryState := updateTelemetry stTr 5 "tr" true 100

/-- Descriptor for the stale-cache scenario. -/
def audSpec : SubagentManifest := mkManifest "aud" ["security"] "audits code"

/-- Registry holding the descriptor, caches empty. -/
def stAud : RegistryState := register emptyRegistry audSpec

/-- State after getManifest populated the specification cache at 0. -/
def stAud1 : RegistryState := (getManifest stAud 0 "aud").2

/-- State after a telemetry update at clock 10. -/
def stAud2 : RegistryState := updateTelemetry stAud1 10 "aud" true 200

/-- First descriptor of the alias-clobbering scenario. -/
def alphaSpec : SubagentManifest := mkManifest "alpha" [] "first"

/-- Second descriptor, declaring the first identifier as its alias. -/
def betaSpec : SubagentManifest :=
  { mkManifest "beta" [] "second" with aliases := some ["alpha"] }

/-- Registry after registering both descriptors in order. -/
def stClobber : RegistryState := [alphaSpec, betaSpec].foldl register emptyRegistry

/-- Five descriptors for the pagination scenario. -/
def fiveSpecs : List SubagentManifest :=
  [mkManifest "a1" [] "", mkManifest "a2" [] "", mkManifest "a3" [] "",
   mkManifest "a4" [] "", mkManifest "a5" [] ""]

/-- Registry holding the five descriptors. -/
def stFive : RegistryState := fiveSpecs.foldl register emptyRegistry

/-- The lowercased tokens a registration claims in the alias table: the
declared aliases and the identifier itself. -/
def aliasTokens (m : SubagentManifest) : List String :=
  toLowerCase m.id :: (m.aliases.getD []).map toLowerCase

/-- Every stored search result satisfies the latency and tag filters
recorded in its cache key. -/
def SessionInv (st : RegistryState) : Prop :=
  ∀ p ∈ st.sessionCache, ∀ c ∈ p.2.capsules,
    latencyFilterOk p.1.latencyClass c = true ∧ tagFilterOk p.1.tags c = true

/-- Count of capsule tags occurring as substrings of the query. -/
def tagMatchCount (query : String) (c : SubagentCapsule) : Nat :=
  (c.tags.filter (fun tg => strIncludes query (toLowerCase tg))).length

/-- Count of pairs of a capsule tag and a query word with the word a
substring of the tag. -/
def tagWordPairCount (qWords : List String) (c : SubagentCapsule) : Nat :=
  (c.tags.map (fun tg => (qWords.filter (fun w => strIncludes (toLowerCase tg) w)).length)).sum

/-- Count of query words occurring as substrings of the summary. -/
def summaryWordCount (qWords : List String) (c : SubagentCapsule) : Nat :=
  (qWords.filter (fun w => strIncludes (toLowerCase c.summary) w)).length

/-- Count of capability keywords occurring as substrings of the query. -/
def capabilityMatchCount (query : String) (c : SubagentCapsule) : Nat :=
  ((c.capabilities.getD []).filter (fun cap => strIncludes query (toLowerCase cap))).length

/-- 100 for a whole-string identifier or alias match, else 0. -/
def exactMatchBonus (query : String) (c : SubagentCapsule) : ℚ :=
  if toLowerCase c.id == query || (c.aliases.getD []).any (fun a => toLowerCase a == query)
  then 100 else 0

/-- The scoring formula as the specification states it: the independent
sum of the exact-match bonus and the four weighted match counts. -/
def specScore (query : String) (qWords : List String) (c : SubagentCapsule) : ℚ :=
  exactMatchBonus query c + 20 * (tagMatchCount query c : ℚ)
    + 5 * (tagWordPairCount qWords c : ℚ) + 10 * (summaryWordCount qWords c : ℚ)
    + 15 * (capabilityMatchCount query c : ℚ)

/-- The successScore stored for an identifier, read through the same
path the boost reads it. -/
def telemetrySuccess (mspec : Option SubagentManifest) : Option ℚ :=
  mspec.bind (fun m => m.telemetry.bind (fun t => t.successScore))

end Registry

namespace Registry

theorem mapGet_mapSet_self {κ α : Type} [DecidableEq κ] (m : List (κ × α)) (k : κ) (v : α) :
    mapGet (mapSet m k v) k = some v := by
  induction m with
  | nil => simp [mapSet, mapGet]
  | cons kv rest ih =>
    obtain ⟨k1, v1⟩ := kv
    by_cases h : k = k1 <;> simp [mapSet, mapGet, h, ih]

theorem mapGet_mapSet_ne {κ α : Type} [DecidableEq κ] (m : List (κ × α)) (k k1 : κ) (v : α)
    (h : k ≠ k1) : mapGet (mapSet m k1 v) k = mapGet m k := by
  induction m with
  | nil => simp [mapSet, mapGet, h]
  | cons kv rest ih =>
    obtain ⟨k2, v2⟩ := kv
    by_cases h2 : k1 = k2
    · subst h2; simp [mapSet, mapGet, h]
    · by_cases h3 : k = k2 <;> simp [mapSet, mapGet, h2, h3, ih]

theorem mapGet_isSome_after_mapSet {κ α : Type} [DecidableEq κ] (m : List (κ × α))
    (k k1 : κ) (v : α) (x : α) (h : mapGet m k = some x) :
    ∃ y, mapGet (mapSet m k1 v) k = some y := by
  by_cases hk : k = k1
  · subst hk; exact ⟨v, mapGet_mapSet_self m k v⟩
  · exact ⟨x, by rw [mapGet_mapSet_ne m k k1 v hk]; exact h⟩

theorem mem_mapSet {κ α : Type} [DecidableEq κ] {k : κ} {v : α} {p : κ × α} :
    ∀ {m : List (κ × α)}, p ∈ mapSet m k v → p = (k, v) ∨ p ∈ m := by
  intro m
  induction m with
  | nil => intro h; simpa [mapSet] using h
  | cons kv rest ih =>
    obtain ⟨k1, v1⟩ := kv
    intro h
    by_cases h1 : k = k1
    · simp only [mapSet, if_pos h1, List.mem_cons] at h
      rcases h with h | h
      · exact Or.inl h
      · exact Or.inr (List.mem_cons_of_mem _ h)
    · simp only [mapSet, if_neg h1, List.mem_cons] at h
      rcases h with h | h
      · exact Or.inr (by simp [h])
      · rcases ih h with h2 | h2
        · exact Or.inl h2
        · exact Or.inr (List.mem_cons_of_mem _ h2)

theorem mem_mapDelete {κ α : Type} [DecidableEq κ] {k : κ} {p : κ × α} :
    ∀ {m : List (κ × α)}, p ∈ mapDelete m k → p ∈ m := by
  intro m
  induction m with
  | nil => intro h; simp [mapDelete] at h
  | cons kv rest ih =>
    obtain ⟨k1, v1⟩ := kv
    intro h
    by_cases h1 : k = k1
    · simp only [mapDelete, if_pos h1] at h
      exact List.mem_cons_of_mem _ h
    · simp only [mapDelete, if_neg h1, List.mem_cons] at h
      rcases h with h | h
      · exact by simp [h]
      · exact List.mem_cons_of_mem _ (ih h)

theorem mem_pruneCache {κ α : Type} [DecidableEq κ] {ts : α → Nat} {maxSize : Nat}
    {m : List (κ × α)} {p : κ × α} (h : p ∈ pruneCache ts maxSize m) : p ∈ m := by
  unfold pruneCache at h
  by_cases h1 : m.length ≥ maxSize
  · rw [if_pos h1] at h
    cases h2 : oldestKey ts m with
    | none => rw [h2] at h; exact h
    | some k => rw [h2] at h; exact mem_mapDelete h
  · rw [if_neg h1] at h; exact h

theorem mapGet_mem {κ α : Type} [DecidableEq κ] {m : List (κ × α)} {k : κ} {v : α}
    (h : mapGet m k = some v) : (k, v) ∈ m := by
  induction m with
  | nil => simp [mapGet] at h
  | cons kv rest ih =>
    obtain ⟨k1, v1⟩ := kv
    by_cases h1 : k = k1
    · simp only [mapGet, if_pos h1] at h
      subst h1
      cases h
      exact List.mem_cons_self _ _
    · simp only [mapGet, if_neg h1] at h
      exact List.mem_cons_of_mem _ (ih h)

theorem mem_insertDesc {x y : SubagentCapsule × ℚ} {l : List (SubagentCapsule × ℚ)} :
    x ∈ insertDesc y l ↔ x = y ∨ x ∈ l := by
  induction l with
  | nil => simp [insertDesc]
  | cons z rest ih =>
    by_cases h : y.2 > z.2
    · simp [insertDesc, h]
    · simp only [insertDesc, if_neg h, List.mem_cons, ih]
      tauto

theorem mem_sortAux {x : SubagentCapsule × ℚ} :
    ∀ (l acc : List (SubagentCapsule × ℚ)),
      x ∈ l.foldl (fun acc y => insertDesc y acc) acc ↔ x ∈ l ∨ x ∈ acc := by
  intro l
  induction l with
  | nil => intro acc; simp
  | cons y rest ih =>
    intro acc
    simp only [List.foldl_cons, ih, mem_insertDesc, List.mem_cons]
    tauto

theorem mem_sortByScoreDesc {x : SubagentCapsule × ℚ} {l : List (SubagentCapsule × ℚ)} :
    x ∈ sortByScoreDesc l ↔ x ∈ l := by
  unfold sortByScoreDesc
  rw [mem_sortAux]
  simp

theorem length_insertDesc (x : SubagentCapsule × ℚ) (l : List (SubagentCapsule × ℚ)) :
    (insertDesc x l).length = l.length + 1 := by
  induction l with
  | nil => simp [insertDesc]
  | cons y rest ih =>
    by_cases h : x.2 > y.2 <;> simp [insertDesc, h, ih]

theorem length_sortAux :
    ∀ (l acc : List (SubagentCapsule × ℚ)),
      (l.foldl (fun acc y => insertDesc y acc) acc).length = l.length + acc.length := by
  intro l
  induction l with
  | nil => intro acc; simp
  | cons y rest ih =>
    intro acc
    simp only [List.foldl_cons, ih, length_insertDesc, List.length_cons]
    omega

theorem length_sortByScoreDesc (l : List (SubagentCapsule × ℚ)) :
    (sortByScoreDesc l).length = l.length := by
  unfold sortByScoreDesc
  rw [length_sortAux]
  simp

end Registry

namespace Registry

theorem mem_scoredOf {st : RegistryState} {req : SearchRequest} {c : SubagentCapsule} {s : ℚ}
    (h : (c, s) ∈ scoredOf st req) :
    c ∈ mapValues st.capsules ∧ passesFilters st req c = true ∧
      s = capsuleScore st (toLowerCase req.query) (queryWordsOf (toLowerCase req.query)) c ∧
      0 < s := by
  simp only [scoredOf] at h
  rw [List.mem_filterMap] at h
  obtain ⟨a, ha, hfa⟩ := h
  rw [List.mem_filter] at ha
  by_cases hpos : 0 < capsuleScore st (toLowerCase req.query) (queryWordsOf (toLowerCase req.query)) a
  · rw [if_pos hpos] at hfa
    obtain ⟨hca, hsa⟩ := Prod.mk.injEq .. ▸ Option.some.inj hfa
    subst hca
    exact ⟨ha.1, ha.2, hsa.symm, hsa ▸ hpos⟩
  · rw [if_neg hpos] at hfa
    exact absurd hfa (Option.noConfusion)

theorem searchCompute_capsules (st : RegistryState) (now : Nat) (req : SearchRequest) :
    (searchCompute st now req).1.capsules =
      ((sortByScoreDesc (scoredOf st req)).map Prod.fst).take (req.k.getD 5) := rfl

theorem searchCompute_total (st : RegistryState) (now : Nat) (req : SearchRequest) :
    (searchCompute st now req).1.total = (scoredOf st req).length := rfl

theorem searchCompute_diagnostics (st : RegistryState) (now : Nat) (req : SearchRequest) :
    (searchCompute st now req).1.diagnostics = ⟨SearchMethod.keyword, 0, false⟩ := rfl

theorem searchCompute_sessionCache (st : RegistryState) (now : Nat) (req : SearchRequest) :
    (searchCompute st now req).2.sessionCache =
      mapSet (pruneCache SessionEntry.timestamp MAX_SEARCH_CACHE st.sessionCache)
        (cacheKeyOf req) ⟨(searchCompute st now req).1.capsules, now⟩ := rfl

theorem searchCompute_state (st : RegistryState) (now : Nat) (req : SearchRequest) :
    (searchCompute st now req).2 =
      { st with sessionCache := (searchCompute st now req).2.sessionCache } := rfl

theorem mem_searchCompute_capsules {st : RegistryState} {now : Nat} {req : SearchRequest}
    {c : SubagentCapsule} (h : c ∈ (searchCompute st now req).1.capsules) :
    passesFilters st req c = true ∧
      0 < capsuleScore st (toLowerCase req.query) (queryWordsOf (toLowerCase req.query)) c := by
  rw [searchCompute_capsules] at h
  have h2 := List.take_subset _ _ h
  rw [List.mem_map] at h2
  obtain ⟨⟨c1, s⟩, hmem, hfst⟩ := h2
  rw [mem_sortByScoreDesc] at hmem
  cases hfst
  have h3 := mem_scoredOf hmem
  exact ⟨h3.2.1, h3.2.2.1 ▸ h3.2.2.2⟩

theorem search_state_components (st : RegistryState) (now : Nat) (req : SearchRequest) :
    (search st now req).2.heap = st.heap ∧ (search st now req).2.manifests = st.manifests ∧
      (search st now req).2.capsules = st.capsules ∧
      (search st now req).2.aliasMap = st.aliasMap ∧
      (search st now req).2.manifestCache = st.manifestCache := by
  unfold search searchCompute
  repeat' split
  all_goals simp

theorem getManifest_state_components (st : RegistryState) (now : Nat) (i : String) :
    (getManifest st now i).2.heap = st.heap ∧ (getManifest st now i).2.manifests = st.manifests ∧
      (getManifest st now i).2.capsules = st.capsules ∧
      (getManifest st now i).2.aliasMap = st.aliasMap ∧
      (getManifest st now i).2.sessionCache = st.sessionCache := by
  unfold getManifest
  repeat' split
  all_goals simp

theorem updateTelemetry_state_components (st : RegistryState) (now : Nat) (id : String)
    (b : Bool) (lat : ℚ) :
    (updateTelemetry st now id b lat).manifests = st.manifests ∧
      (updateTelemetry st now id b lat).capsules = st.capsules ∧
      (updateTelemetry st now id b lat).aliasMap = st.aliasMap ∧
      (updateTelemetry st now id b lat).sessionCache = st.sessionCache ∧
      (updateTelemetry st now id b lat).manifestCache = st.manifestCache := by
  unfold updateTelemetry
  repeat' split
  all_goals simp

theorem sessionInv_searchCompute {st : RegistryState} {now : Nat} {req : SearchRequest}
    (h : SessionInv st) : SessionInv (searchCompute st now req).2 := by
  intro p hp c hc
  rw [searchCompute_sessionCache] at hp
  rcases mem_mapSet hp with h1 | h1
  · subst h1
    have h4 := (@mem_searchCompute_capsules st now req c hc).1
    simp only [passesFilters, Bool.and_eq_true] at h4
    exact ⟨h4.1.1, h4.1.2⟩
  · exact h p (mem_pruneCache h1) c hc

theorem sessionInv_applyOp {st : RegistryState} (h : SessionInv st) (op : Op) :
    SessionInv (applyOp st op) := by
  cases op with
  | reg m => exact fun p hp c hc => h p hp c hc
  | srch now req =>
    show SessionInv (search st now req).2
    unfold search
    cases hg : mapGet st.sessionCache (cacheKeyOf req) with
    | some entry =>
      by_cases ht : now - entry.timestamp < CACHE_TTL
      · simpa [ht] using h
      · simpa [ht] using @sessionInv_searchCompute st now req h
    | none => exact sessionInv_searchCompute h
  | getMan now i =>
    intro p hp c hc
    simp only [applyOp] at hp
    rw [(getManifest_state_components st now i).2.2.2.2] at hp
    exact h p hp c hc
  | tele now i s l =>
    intro p hp c hc
    simp only [applyOp] at hp
    rw [(updateTelemetry_state_components st now i s l).2.2.2.1] at hp
    exact h p hp c hc
  | clear =>
    intro p hp c hc
    simp [applyOp, clearCache] at hp

theorem sessionInv_foldl (ops : List Op) :
    ∀ st : RegistryState, SessionInv st → SessionInv (ops.foldl applyOp st) := by
  induction ops with
  | nil => intro st hst; exact hst
  | cons op rest ih => intro st hst; exact ih _ (sessionInv_applyOp hst op)

theorem sessionInv_runOps (ops : List Op) : SessionInv (runOps ops) :=
  sessionInv_foldl ops emptyRegistry (fun p hp => by simp [emptyRegistry] at hp)

end Registry

namespace Registry

theorem foldl_count_add {α : Type} (p : α → Bool) (q : ℚ) :
    ∀ (l : List α) (a : ℚ),
      l.foldl (fun acc x => if p x then acc + q else acc) a
        = a + q * ((l.filter p).length : ℚ) := by
  intro l
  induction l with
  | nil => intro a; simp
  | cons x xs ih =>
    intro a
    by_cases h : p x = true
    · rw [List.foldl_cons, if_pos h, ih, List.filter_cons, if_pos h, List.length_cons]
      push_cast
      ring
    · rw [List.foldl_cons, if_neg h, ih, List.filter_cons, if_neg h]

theorem foldl_tags_eq (query : String) (qWords : List String) :
    ∀ (tags : List String) (a : ℚ),
      tags.foldl
        (fun acc tag =>
          qWords.foldl
            (fun acc2 w => if strIncludes (toLowerCase tag) w then acc2 + 5 else acc2)
            (if strIncludes query (toLowerCase tag) then acc + 20 else acc))
        a
      = a + 20 * ((tags.filter (fun tg => strIncludes query (toLowerCase tg))).length : ℚ)
          + 5 * ((tags.map
              (fun tg => (qWords.filter (fun w => strIncludes (toLowerCase tg) w)).length)).sum : ℚ) := by
  intro tags
  induction tags with
  | nil => intro a; simp
  | cons t ts ih =>
    intro a
    rw [List.foldl_cons, foldl_count_add, ih, List.filter_cons, List.map_cons, List.sum_cons]
    by_cases h : strIncludes query (toLowerCase t) = true
    · rw [if_pos h, if_pos h, List.length_cons]
      push_cast
      ring
    · rw [if_neg h, if_neg h]
      push_cast
      ring

theorem rawScore_eq_specScore (query : String) (qWords : List String) (c : SubagentCapsule) :
    rawScore query qWords c = specScore query qWords c := by
  simp only [rawScore, specScore, exactMatchBonus, tagMatchCount, tagWordPairCount,
    summaryWordCount, capabilityMatchCount]
  cases hc : c.capabilities with
  | none =>
    simp only [Option.getD_none, List.filter_nil, List.length_nil]
    rw [foldl_tags_eq, foldl_count_add]
    push_cast
    ring
  | some cs =>
    simp only [Option.getD_some]
    rw [foldl_tags_eq, foldl_count_add, foldl_count_add]

theorem length_filterMap_posScore {α : Type} (f : α → ℚ) :
    ∀ l : List α,
      (l.filterMap (fun c => if 0 < f c then some (c, f c) else none)).length
        = (l.filter (fun c => decide (0 < f c))).length := by
  intro l
  induction l with
  | nil => simp
  | cons x xs ih =>
    by_cases h : 0 < f x
    · simp [h, ih]
    · simp [h, ih]

theorem scoredOf_length (st : RegistryState) (req : SearchRequest) :
    (scoredOf st req).length
      = ((mapValues st.capsules).filter
          (fun c =>
            decide (0 < capsuleScore st (toLowerCase req.query)
              (queryWordsOf (toLowerCase req.query)) c)
            && passesFilters st req c)).length := by
  simp only [scoredOf]
  rw [length_filterMap_posScore, List.filter_filter]

end Registry

namespace Registry

theorem mapGet_isSome_foldl_mapSet {κ α β : Type} [DecidableEq κ] (f : β → κ) (g : β → α) :
    ∀ (l : List β) (m : List (κ × α)) (k : κ) (x : α), mapGet m k = some x →
      ∃ y, mapGet (l.foldl (fun m b => mapSet m (f b) (g b)) m) k = some y := by
  intro l
  induction l with
  | nil => intro m k x h; exact ⟨x, h⟩
  | cons b rest ih =>
    intro m k x h
    obtain ⟨y, hy⟩ := mapGet_isSome_after_mapSet m k (f b) (g b) x h
    exact ih _ k y hy

theorem mapGet_foldl_mapSet_ne {κ α β : Type} [DecidableEq κ] (f : β → κ) (g : β → α) :
    ∀ (l : List β) (m : List (κ × α)) (k : κ), (∀ b ∈ l, k ≠ f b) →
      mapGet (l.foldl (fun m b => mapSet m (f b) (g b)) m) k = mapGet m k := by
  intro l
  induction l with
  | nil => intro m k _; rfl
  | cons b rest ih =>
    intro m k h
    rw [List.foldl_cons, ih _ k (fun b2 hb2 => h b2 (List.mem_cons_of_mem _ hb2)),
      mapGet_mapSet_ne _ _ _ _ (h b (List.mem_cons_self _ _))]

theorem specById_updateTelemetry {st : RegistryState} {id : String} {b : Bool} {lat : ℚ}
    {now : Nat} {m : SubagentManifest} (hm : specById st id = some m) :
    specById (updateTelemetry st now id b lat) id
      = some { m with telemetry := some (telemetryStep m.telemetry b lat now) } := by
  unfold specById at hm
  cases hr : mapGet st.manifests id with
  | none => rw [hr] at hm; simp at hm
  | some ref =>
    rw [hr, Option.some_bind] at hm
    have hlt : ref < st.heap.length := (List.getElem?_eq_some.mp hm).1
    have hstep : updateTelemetry st now id b lat = { st with heap := st.heap.set ref { m with telemetry := some (telemetryStep m.telemetry b lat now) } } := by
      unfold updateTelemetry
      rw [hr]
      simp [hm]
    rw [hstep]
    unfold specById
    simp [hr, List.getElem?_set, hlt]

/-- C5: the first UpdateTelemetry on a descriptor without a telemetry
block initialises successScore to 1 or 0, latency to the observed value
and invocationCount to 1; each later update with a full telemetry block
applies the 0.9/0.1 exponential smoothing to both dimensions, increments
the count and stamps the last-invoked time. -/
theorem updateTelemetry_formula (st : RegistryState) (id : String) (b : Bool) (lat : ℚ)
    (now : Nat) (m : SubagentManifest) (hm : specById st id = some m) :
    (m.telemetry = none →
        specById (updateTelemetry st now id b lat) id
          = some { m with telemetry := some (TelemetryData.mk
              (some (if b then (1:ℚ) else 0)) (some lat) (some 1) (some now)) }) ∧
    (∀ (t : TelemetryData) (s l : ℚ) (n : Nat),
        m.telemetry = some t → t.successScore = some s → t.typicalLatencyMs = some l →
        t.invocationCount = some n →
        specById (updateTelemetry st now id b lat) id
          = some { m with telemetry := some (TelemetryData.mk
              (some (s * 0.9 + (if b then (1:ℚ) else 0) * 0.1))
              (some (l * 0.9 + lat * 0.1)) (some (n + 1)) (some now)) }) := by
  have core := @specById_updateTelemetry st id b lat now m hm
  constructor
  · intro ht
    rw [core, ht]
    rfl
  · intro t s l n ht hs hl hn
    rw [core, ht]
    simp [telemetryStep, hs, hl, hn]

/-- C5 witness: a fresh descriptor observed successfully at latency 100
and clock 5, then observed as a failure at latency 50 and clock 6. -/
theorem updateTelemetry_formula_witness :
    specById stTr1 "tr" = some { trSpec with telemetry := some (TelemetryData.mk
        (some (if true then (1:ℚ) else 0)) (some 100) (some 1) (some 5)) } ∧
    specById (updateTelemetry stTr1 6 "tr" false 50) "tr"
      = some { { trSpec with telemetry := some ⟨some 1, some 100, some 1, some 5⟩ } with
          telemetry := some (TelemetryData.mk
            (some ((1:ℚ) * 0.9 + (if false then (1:ℚ) else 0) * 0.1))
            (some ((100:ℚ) * 0.9 + 50 * 0.1)) (some (1 + 1)) (some 6)) } := by
  constructor
  · exact (updateTelemetry_formula stTr "tr" true 100 5 trSpec (by decide)).1 (by decide)
  · exact (updateTelemetry_formula stTr1 "tr" false 50 6
      { trSpec with telemetry := some ⟨some 1, some 100, some 1, some 5⟩ } (by decide)).2
      ⟨some 1, some 100, some 1, some 5⟩ 1 100 1 rfl rfl rfl rfl

/-- C8: lookups driven by unknown identifiers or aliases are total and
harmless: getManifest answers an explicit not-found value and leaves the
state unchanged, and updateTelemetry on an unregistered canonical
identifier is a no-op on the whole registry state. -/
theorem lookup_not_found_safe (st : RegistryState) (now : Nat) (idOrAlias : String) :
    (resolveId st idOrAlias = none → getManifest st now idOrAlias = (none, st)) ∧
    (∀ id, resolveId st idOrAlias = some id → mapGet st.manifests id = none →
        mapGet st.manifestCache id = none → getManifest st now idOrAlias = (none, st)) ∧
    (∀ (id : String) (b : Bool) (lat : ℚ), mapGet st.manifests id = none →
        updateTelemetry st now id b lat = st) := by
  refine ⟨?_, ?_, ?_⟩
  · intro h
    simp [getManifest, h]
  · intro id h1 h2 h3
    simp [getManifest, h1, h2, h3]
  · intro id b lat h
    simp [updateTelemetry, h]

/-- C8 witness: the empty registry at an unknown token. -/
theorem lookup_not_found_safe_witness :
    getManifest emptyRegistry 0 "ghost" = (none, emptyRegistry) ∧
    updateTelemetry emptyRegistry 0 "ghost" true 5 = emptyRegistry :=
  ⟨(lookup_not_found_safe emptyRegistry 0 "ghost").1 (by decide),
   (lookup_not_found_safe emptyRegistry 0 "ghost").2.2 "ghost" true 5 (by decide)⟩

end Registry

namespace Registry

attribute [local semireducible] Rat.add Rat.mul Rat.sub Rat.ofScientific Rat.inv

/-- C3: for every request, the pre-multiplier score of a capsule equals
the independent sum of the exact-match bonus, 20 per tag contained in
the query, 5 per tag and query-word pair with the word contained in the
tag, 10 per query word contained in the summary and 15 per capability
contained in the query; and the freshly computed response counts and
returns exactly the filter-surviving capsules of strictly positive final
score. -/
theorem search_score_formula :
    (∀ (query : String) (qWords : List String) (c : SubagentCapsule),
        rawScore query qWords c = specScore query qWords c) ∧
    (∀ (st : RegistryState) (now : Nat) (req : SearchRequest),
        (searchCompute st now req).1.total
          = ((mapValues st.capsules).filter
              (fun c =>
                decide (0 < capsuleScore st (toLowerCase req.query)
                  (queryWordsOf (toLowerCase req.query)) c)
                && passesFilters st req c)).length) ∧
    (∀ (st : RegistryState) (now : Nat) (req : SearchRequest) (c : SubagentCapsule),
        c ∈ (searchCompute st now req).1.capsules →
          0 < capsuleScore st (toLowerCase req.query)
            (queryWordsOf (toLowerCase req.query)) c) := by
  refine ⟨rawScore_eq_specScore, ?_, ?_⟩
  · intro st now req
    rw [searchCompute_total, scoredOf_length]
  · intro st now req c h
    exact (mem_searchCompute_capsules h).2

/-- C3 witness: the formula and the positive-score condition evaluated
on a concrete registry and query. -/
theorem search_score_formula_witness :
    rawScore "security" ["security"] (deriveCapsule secA)
      = specScore "security" ["security"] (deriveCapsule secA) ∧
    0 < capsuleScore stC2 (toLowerCase reqC2.query)
      (queryWordsOf (toLowerCase reqC2.query)) (deriveCapsule secA) :=
  ⟨search_score_formula.1 "security" ["security"] (deriveCapsule secA),
   search_score_formula.2.2 stC2 0 reqC2 (deriveCapsule secA) (by decide)⟩

/-- C4 counterexample: after one failed observation the stored success
score is exactly 0, which is falsy in JS, so the multiplier is skipped
and a raw score of 100 stays 100 instead of the 80 the claim requires. -/
theorem telemetry_boost_zero_counterexample :
    telemetrySuccess (specById stZero "sec-agent") = some 0 ∧
    boostScore (specById stZero "sec-agent") 100 = 100 ∧
    ((0.8 + 0.2 * (0:ℚ)) * 100 ≠ 100) := by decide

/-- C4 amended: the multiplier 0.8 + 0.2 times successScore is applied
exactly when a success score is present and nonzero; a missing block or
a present score equal to 0 leaves the accumulated score unchanged. -/
theorem telemetry_boost_zero_skipped (mspec : Option SubagentManifest) (s ss : ℚ) :
    (telemetrySuccess mspec = some ss → ss ≠ 0 →
        boostScore mspec s = s * (0.8 + 0.2 * ss)) ∧
    (telemetrySuccess mspec = some 0 → boostScore mspec s = s) ∧
    (telemetrySuccess mspec = none → boostScore mspec s = s) := by
  rcases mspec with _ | m
  · simp [telemetrySuccess, boostScore]
  · rcases hmt : m.telemetry with _ | t
    · simp [telemetrySuccess, boostScore, hmt]
    · rcases hss : t.successScore with _ | v
      · simp [telemetrySuccess, boostScore, hmt, hss]
      · refine ⟨?_, ?_, ?_⟩
        · intro h hne
          have hv : v = ss := by
            simpa [telemetrySuccess, hmt, hss] using h
          subst hv
          have hbeq : (v == 0) = false := by
            simp [hne]
          simp [boostScore, hmt, hss, hbeq]
        · intro h
          have hv : v = 0 := by
            simpa [telemetrySuccess, hmt, hss] using h
          subst hv
          simp [boostScore, hmt, hss]
        · intro h
          simp [telemetrySuccess, hmt, hss] at h

/-- C4 witness: a present score of one half multiplies a raw score of
10, and the zero score of the counterexample registry leaves 7 alone. -/
theorem telemetry_boost_zero_skipped_witness :
    boostScore (some halfScoreSpec) 10 = 10 * (0.8 + 0.2 * (1/2 : ℚ)) ∧
    boostScore (specById stZero "sec-agent") 7 = 7 :=
  ⟨(telemetry_boost_zero_skipped (some halfScoreSpec) 10 (1/2)).1 (by decide) (by norm_num),
   (telemetry_boost_zero_skipped (specById stZero "sec-agent") 7 0).2.1 (by decide)⟩

/-- C10: no operation removes alias-table entries: a token that resolves
keeps resolving after any further operation, and a register whose
manifest does not claim the token leaves its resolution unchanged. -/
theorem alias_table_monotone (st : RegistryState) (a : String) :
    (∀ (op : Op) (x : String), resolveId st a = some x →
        ∃ y, resolveId (applyOp st op) a = some y) ∧
    (∀ m : SubagentManifest, toLowerCase a ∉ aliasTokens m →
        resolveId (register st m) a = resolveId st a) := by
  constructor
  · intro op x h
    cases op with
    | reg m =>
      show ∃ y, resolveId (register st m) a = some y
      unfold resolveId at h ⊢
      unfold register
      obtain ⟨y, hy⟩ := mapGet_isSome_foldl_mapSet toLowerCase (fun _ => m.id)
        (m.aliases.getD []) st.aliasMap (toLowerCase a) x h
      exact mapGet_isSome_after_mapSet _ _ _ _ y hy
    | srch now req =>
      refine ⟨x, ?_⟩
      show resolveId (search st now req).2 a = some x
      unfold resolveId
      rw [(search_state_components st now req).2.2.2.1]
      exact h
    | getMan now i =>
      refine ⟨x, ?_⟩
      show resolveId (getManifest st now i).2 a = some x
      unfold resolveId
      rw [(getManifest_state_components st now i).2.2.2.1]
      exact h
    | tele now i sc l =>
      refine ⟨x, ?_⟩
      show resolveId (updateTelemetry st now i sc l) a = some x
      unfold resolveId
      rw [(updateTelemetry_state_components st now i sc l).2.2.1]
      exact h
    | clear => exact ⟨x, h⟩
  · intro m hfree
    simp only [aliasTokens, List.mem_cons, List.mem_map, not_or, not_exists] at hfree
    unfold resolveId register
    rw [mapGet_mapSet_ne _ _ _ _ hfree.1]
    exact mapGet_foldl_mapSet_ne toLowerCase (fun _ => m.id) (m.aliases.getD [])
      st.aliasMap (toLowerCase a)
      (fun b2 hb2 => fun heq => (hfree.2 b2) (by exact ⟨hb2, heq.symm⟩))

/-- C10 witness: an already registered identifier keeps resolving after
a further registration which does not claim it. -/
theorem alias_table_monotone_witness :
    (∃ y, resolveId (applyOp stGui (Op.reg secA)) "gui-agent" = some y) ∧
    resolveId (register stGui secA) "gui-agent" = resolveId stGui "gui-agent" :=
  ⟨(alias_table_monotone stGui "gui-agent").1 (Op.reg secA) "gui-agent" (by decide),
   (alias_table_monotone stGui "gui-agent").2 secA (by decide)⟩

end Registry

namespace Registry

attribute [local semireducible] Rat.add Rat.mul Rat.sub Rat.ofScientific Rat.inv

theorem search_capsules_cases {st : RegistryState} {now : Nat} {req : SearchRequest}
    {c : SubagentCapsule} (h : c ∈ (search st now req).1.capsules) :
    (∃ entry, mapGet st.sessionCache (cacheKeyOf req) = some entry ∧ c ∈ entry.capsules) ∨
      c ∈ (searchCompute st now req).1.capsules := by
  unfold search at h
  cases hg : mapGet st.sessionCache (cacheKeyOf req) with
  | some entry =>
    rw [hg] at h
    by_cases ht : now - entry.timestamp < CACHE_TTL
    · simp only [if_pos ht] at h
      exact Or.inl ⟨entry, rfl, List.take_subset _ _ h⟩
    · simp only [if_neg ht] at h
      exact Or.inr h
  | none =>
    rw [hg] at h
    exact Or.inr h

/-- C1 amended: every capsule of any Search response satisfies the
latency and tag filters of the request, whether served fresh or from the
session cache; the host-capability filter is guaranteed for freshly
computed responses, but not for cache hits, because the cache key omits
host capabilities. -/
theorem search_filter_soundness (ops : List Op) (now : Nat) (req : SearchRequest) :
    (∀ c ∈ ((search (runOps ops) now req).1).capsules,
        latencyFilterOk req.latencyClass c = true ∧ tagFilterOk req.tags c = true) ∧
    (∀ c ∈ ((searchCompute (runOps ops) now req).1).capsules,
        latencyFilterOk req.latencyClass c = true ∧ tagFilterOk req.tags c = true ∧
          hostFilterOk req.hostCaps (specById (runOps ops) c.id) = true) := by
  constructor
  · intro c hc
    rcases search_capsules_cases hc with ⟨entry, hg, hmem⟩ | hfresh
    · exact sessionInv_runOps ops (cacheKeyOf req, entry) (mapGet_mem hg) c hmem
    · have h := (mem_searchCompute_capsules hfresh).1
      simp only [passesFilters, Bool.and_eq_true] at h
      exact ⟨h.1.1, h.1.2⟩
  · intro c hc
    have h := (mem_searchCompute_capsules hc).1
    simp only [passesFilters, Bool.and_eq_true] at h
    exact ⟨h.1.1, h.1.2, h.2⟩

/-- C1 witness: the GUI-requiring descriptor is returned to the
GUI-capable caller and satisfies all three filters there. -/
theorem search_filter_soundness_witness :
    latencyFilterOk reqGui.latencyClass (deriveCapsule guiSpec) = true ∧
    tagFilterOk reqGui.tags (deriveCapsule guiSpec) = true ∧
    hostFilterOk reqGui.hostCaps
      (specById (runOps [Op.reg guiSpec]) (deriveCapsule guiSpec).id) = true :=
  (search_filter_soundness [Op.reg guiSpec] 0 reqGui).2 (deriveCapsule guiSpec) (by decide)

/-- C1 counterexample: the same query issued first by a GUI-capable
caller and then, within the TTL, by a caller without a GUI hits the
cache, whose key ignores host capabilities, and returns the
GUI-requiring capsule even though the host filter rejects it. -/
theorem search_hostcaps_cache_counterexample :
    ((search (search stGui 0 reqGui).2 1 reqNoGui).1).diagnostics.cacheHit = true ∧
    ((search (search stGui 0 reqGui).2 1 reqNoGui).1).capsules = [deriveCapsule guiSpec] ∧
    (deriveCapsule guiSpec).id = "gui-agent" ∧
    hostFilterOk reqNoGui.hostCaps (specById (search stGui 0 reqGui).2 "gui-agent") = false := by
  decide

/-- C2 amended: a request answered by a fresh computation, repeated
identically within the TTL, is served from the cache with cacheHit true
and the same ordered capsule list; its total is the length of the cached
truncated list, that is the minimum of the limit and the fresh total,
rather than always the fresh total. -/
theorem search_cache_hit_stability (st : RegistryState) (req : SearchRequest) (t1 t2 : Nat)
    (h1 : ((search st t1 req).1).diagnostics.cacheHit = false)
    (h2 : t2 - t1 < CACHE_TTL) :
    ((search (search st t1 req).2 t2 req).1).diagnostics.cacheHit = true ∧
    ((search (search st t1 req).2 t2 req).1).capsules = ((search st t1 req).1).capsules ∧
    ((search (search st t1 req).2 t2 req).1).total
      = min (req.k.getD 5) ((search st t1 req).1).total := by
  have hmiss : search st t1 req = searchCompute st t1 req := by
    unfold search
    cases hg : mapGet st.sessionCache (cacheKeyOf req) with
    | none => rfl
    | some entry =>
      by_cases ht : t1 - entry.timestamp < CACHE_TTL
      · exfalso
        unfold search at h1
        rw [hg] at h1
        simp only [if_pos ht] at h1
        exact Bool.noConfusion h1
      · simp only [if_neg ht]
  rw [hmiss]
  have hget : mapGet (searchCompute st t1 req).2.sessionCache (cacheKeyOf req)
      = some ⟨(searchCompute st t1 req).1.capsules, t1⟩ := by
    rw [searchCompute_sessionCache]
    exact mapGet_mapSet_self _ _ _
  unfold search
  rw [hget]
  simp only [if_pos h2]
  refine ⟨by trivial, ?_, ?_⟩
  · rw [searchCompute_capsules, List.take_take, min_self]
  · rw [searchCompute_capsules, List.length_take, List.length_map,
      length_sortByScoreDesc, searchCompute_total]

/-- C2 witness: the two-descriptor registry with limit 1; the first call
is fresh, the second is the cached echo. -/
theorem search_cache_hit_stability_witness :
    ((search (search stC2 0 reqC2).2 1 reqC2).1).diagnostics.cacheHit = true ∧
    ((search (search stC2 0 reqC2).2 1 reqC2).1).capsules = ((search stC2 0 reqC2).1).capsules ∧
    ((search (search stC2 0 reqC2).2 1 reqC2).1).total
      = min (reqC2.k.getD 5) ((search stC2 0 reqC2).1).total :=
  search_cache_hit_stability stC2 reqC2 0 1 (by decide) (by decide)

/-- C2 counterexample: two capsules match but the limit is 1; the fresh
total is 2 while the cached response within the TTL reports total 1, so
the cached response is distinguishable from the fresh one. -/
theorem search_cache_total_counterexample :
    ((search stC2 0 reqC2).1).total = 2 ∧
    ((search (search stC2 0 reqC2).2 1 reqC2).1).diagnostics.cacheHit = true ∧
    ((search (search stC2 0 reqC2).2 1 reqC2).1).total = 1 := by decide

end Registry

namespace Registry

attribute [local semireducible] Rat.add Rat.mul Rat.sub Rat.ofScientific Rat.inv

/-- C6 counterexample: getManifest populates the cache at clock 0, a
telemetry update lands at clock 10, and a second getManifest at clock 20
is well inside the TTL yet returns the updated telemetry, because the
cache stores a reference to the single authoritative record, not a
pre-update copy. -/
theorem getManifest_stale_counterexample :
    (getManifest stAud 0 "aud").1 = some audSpec ∧
    audSpec.telemetry = none ∧
    (getManifest stAud2 20 "aud").1
      = some { audSpec with telemetry := some (TelemetryData.mk
          (some 1) (some 200) (some 1) (some 10)) } ∧
    ¬ (getManifest stAud2 20 "aud").1 = some audSpec := by decide

/-- C6 amended: after a GetManifest has populated the specification
cache for an identifier, an UpdateTelemetry followed by another
GetManifest within the TTL returns the Specification carrying the
updated telemetry block, not the pre-update values: the cache holds a
reference to the authoritative record, so in-place telemetry mutation is
visible through cache hits. -/
theorem getManifest_after_update_fresh (st : RegistryState) (id : String) (ref : Nat)
    (m : SubagentManifest) (b : Bool) (lat : ℚ) (now1 now2 now3 : Nat)
    (h0 : mapGet st.aliasMap (toLowerCase id) = some id)
    (h1 : mapGet st.manifests id = some ref)
    (h2 : st.heap[ref]? = some m)
    (h3 : mapGet st.manifestCache id = none)
    (h4 : now3 - now1 < CACHE_TTL) :
    (getManifest (updateTelemetry (getManifest st now1 id).2 now2 id b lat) now3 id).1
      = some { m with telemetry := some (telemetryStep m.telemetry b lat now2) } := by
  have hlt : ref < st.heap.length := (List.getElem?_eq_some.mp h2).1
  have hst1 : (getManifest st now1 id).2 = { st with manifestCache := (mapSet
      (pruneCache ManifestEntry.timestamp MAX_MANIFEST_CACHE st.manifestCache)
      id ⟨ref, now1⟩) } := by
    unfold getManifest resolveId
    rw [h0]
    simp only [h3, h1]
  have hst2 : updateTelemetry (getManifest st now1 id).2 now2 id b lat
      = { (getManifest st now1 id).2 with heap := (st.heap.set ref
          { m with telemetry := some (telemetryStep m.telemetry b lat now2) }) } := by
    unfold updateTelemetry
    rw [hst1]
    simp only [h1, h2]
  rw [hst2, hst1]
  unfold getManifest resolveId
  rw [h0]
  simp only [mapGet_mapSet_self]
  simp only [if_pos h4]
  simp [List.getElem?_set, hlt]

/-- C6 witness: the concrete scenario of the stale-cache registry, with
the conclusion written through telemetryStep. -/
theorem getManifest_after_update_fresh_witness :
    (getManifest (updateTelemetry (getManifest stAud 0 "aud").2 10 "aud" true 200) 20 "aud").1
      = some { audSpec with telemetry := some (telemetryStep audSpec.telemetry true 200 10) } :=
  getManifest_after_update_fresh stAud "aud" 0 audSpec true 200 0 10 20
    (by decide) (by decide) (by decide) (by decide) (by decide)

theorem register_aliasMap_not_claimed (st : RegistryState) (key : String)
    (m : SubagentManifest) (h : key ∉ aliasTokens m) :
    mapGet (register st m).aliasMap key = mapGet st.aliasMap key := by
  simp only [aliasTokens, List.mem_cons, List.mem_map, not_or, not_exists] at h
  unfold register
  rw [mapGet_mapSet_ne _ _ _ _ h.1]
  exact mapGet_foldl_mapSet_ne toLowerCase (fun _ => m.id) (m.aliases.getD [])
    st.aliasMap key (fun b2 hb2 => fun heq => (h.2 b2) ⟨hb2, heq.symm⟩)

theorem foldl_register_self_alias (id : String) :
    ∀ (ms : List SubagentManifest) (st : RegistryState),
      ((∃ m ∈ ms, m.id = id) ∨ mapGet st.aliasMap (toLowerCase id) = some id) →
      (∀ m ∈ ms, m.id ≠ id → toLowerCase id ∉ aliasTokens m) →
      mapGet (ms.foldl register st).aliasMap (toLowerCase id) = some id := by
  intro ms
  induction ms with
  | nil =>
    intro st h _
    rcases h with ⟨m, hm, _⟩ | h
    · exact absurd hm (List.not_mem_nil m)
    · simpa using h
  | cons m rest ih =>
    intro st h hfree
    rw [List.foldl_cons]
    by_cases hid : m.id = id
    · refine ih (register st m) (Or.inr ?_) ?_
      · subst hid
        unfold register
        exact mapGet_mapSet_self _ _ _
      · intro m2 hm2 hne
        exact hfree m2 (List.mem_cons_of_mem _ hm2) hne
    · refine ih (register st m) ?_ ?_
      · rcases h with ⟨m1, hm1, hid1⟩ | h
        · rcases List.mem_cons.mp hm1 with heq | hm1r
          · exact absurd (heq ▸ hid1) hid
          · exact Or.inl ⟨m1, hm1r, hid1⟩
        · refine Or.inr ?_
          rw [register_aliasMap_not_claimed st _ m (hfree m (List.mem_cons_self _ _) hid)]
          exact h
      · intro m2 hm2 hne
        exact hfree m2 (List.mem_cons_of_mem _ hm2) hne

/-- C7 amended: after registering any catalog, an identifier resolves to
itself, in any letter case, provided no other registered Specification
claims that identifier case-insensitively as its own identifier or as a
declared alias; a later registration that declares the identifier as an
alias overwrites the self-alias entry. -/
theorem resolve_self_alias_amended (ms : List SubagentManifest) (id v : String)
    (hmem : ∃ m ∈ ms, m.id = id)
    (hfree : ∀ m ∈ ms, m.id ≠ id → toLowerCase id ∉ aliasTokens m)
    (hv : toLowerCase v = toLowerCase id) :
    resolveId (ms.foldl register emptyRegistry) v = some id := by
  unfold resolveId
  rw [hv]
  exact foldl_register_self_alias id ms emptyRegistry (Or.inl hmem) hfree

/-- C7 witness: two registered descriptors without alias collisions both
resolve to themselves, here checked case-insensitively on the second. -/
theorem resolve_self_alias_amended_witness :
    resolveId ([secA, secB].foldl register emptyRegistry) "SEC-B" = some "sec-b" :=
  resolve_self_alias_amended [secA, secB] "sec-b" "SEC-B" (by decide) (by decide) (by decide)

/-- C7 counterexample: beta declares the already registered identifier
alpha as an alias, so ResolveAlias of alpha answers beta although alpha
is still a registered Specification. -/
theorem resolve_self_alias_counterexample :
    specById stClobber "alpha" = some alphaSpec ∧
    resolveId stClobber "alpha" = some "beta" ∧
    ("beta" : String) ≠ "alpha" := by decide

/-- C9: negative pagination values are not normalized: a negative offset
of a List request is passed to the slice and selects an end-relative
window (the last two capsules here), and a negative page size produces a
truncated-from-the-end page while still reporting hasMore = true; the
operation is total, but the page is exactly the anomalous end-relative
slice the specification excludes. -/
theorem list_negative_pagination_behavior :
    (list stFive ⟨none, some 50, some (-2)⟩).capsules
      = [deriveCapsule (mkManifest "a4" [] ""), deriveCapsule (mkManifest "a5" [] "")] ∧
    (list stFive ⟨none, some 50, some (-2)⟩).total = 5 ∧
    (list stFive ⟨none, some 50, some (-2)⟩).hasMore = false ∧
    (list stFive ⟨none, some (-2), some 0⟩).capsules
      = [deriveCapsule (mkManifest "a1" [] ""), deriveCapsule (mkManifest "a2" [] ""),
         deriveCapsule (mkManifest "a3" [] "")] ∧
    (list stFive ⟨none, some (-2), some 0⟩).hasMore = true := by decide

end Registry
